import Mathlib

/-!
Verification of the canai event-triggered video-recording application.

We give a shallow embedding of the core logic of the repository:

* `CanAI._handle_detection` (src/canai/canai.py) — the trigger state machine;
* `CanAI._validate_config` (src/canai/canai.py) — config validation;
* `VideoStreamHandler._maintain_buffer` / `add_frame`
  (src/canai/stream/video_stream_handler.py) — the pre-event frame buffer;
* `EventClipRecorder.record_clip` in both of its versions
  (src/canai/project_utils/video_recorder.py and
  src/project_utils/video_recorder.py) — clip recording;
* `AIDetector.detect` (src/canai/detectors/ai_detector.py) — detection.

Pure data is embedded directly; wall-clock reads, camera frames and detector
outputs are passed in as explicit arguments (the values the corresponding
Python calls would have returned), and effects such as spawning a recording
thread or writing a frame to the video sink are returned as explicit traces.
Real-valued quantities (timestamps, confidences, thresholds) are modelled by
`ℚ`.  Frames are opaque values, modelled by `ℕ`.
-/

/-- A video frame is opaque to all of the logic verified here. -/
abbrev Frame := ℕ

namespace Canai

/-! ### Trigger state machine: `CanAI._handle_detection` (src/canai/canai.py) -/

/-- The mutable trigger state of the `CanAI` orchestrator that
`_handle_detection` reads and writes: `recorded_detection`,
`last_detection_time` and `recording_in_progress` (src/canai/canai.py,
`__init__`). -/
structure TriggerState where
  recorded_detection : Bool
  last_detection_time : ℚ
  recording_in_progress : Bool
  deriving Repr, DecidableEq

/-- The configuration values `_handle_detection` reads:
`config.get('detection_threshold', 0.7)` (the high threshold),
`config.get('low_detection_threshold', 0.3)` (the low threshold) and
`config['pre_event_seconds']` (used as the re-trigger cooldown). -/
structure TriggerConfig where
  detection_threshold : ℚ
  low_detection_threshold : ℚ
  pre_event_seconds : ℚ
  deriving Repr, DecidableEq

/-- The configuration with the default thresholds `0.7` and `0.3` and a
cooldown of 2 seconds. -/
def defaultTriggerConfig : TriggerConfig :=
  { detection_threshold := 7/10
    low_detection_threshold := 3/10
    pre_event_seconds := 2 }

/-- Shallow embedding of `CanAI._handle_detection` (src/canai/canai.py).

Arguments stand for the values the Python code obtains at run time:
`current_time` is `time.time()`, `confidence` is the array returned by
`self.detector.detect(frame)` (numpy `.any()` / `.all()` become `List.any` /
`List.all`), and `buffer` is `list(self.stream_handler.frame_buffer.queue)`.

The result is the new trigger state paired with the list of recording tasks
spawned during the call, each carrying the pre-event buffer snapshot passed
to `_record_clip`.  The branch structure below reproduces the source exactly:
the `elif` branches of the Python code are nested inside the outer
`if (confidence >= high_threshold).any() and not self.recording_in_progress`
block. -/
def handle_detection (cfg : TriggerConfig) (s : TriggerState)
    (current_time : ℚ) (confidence : List ℚ) (buffer : List Frame) :
    TriggerState × List (List Frame) :=
  if (confidence.any (fun c => cfg.detection_threshold ≤ c))
      ∧ ¬ s.recording_in_progress then
    if cfg.pre_event_seconds < current_time - s.last_detection_time then
      ({ s with recording_in_progress := true,
                last_detection_time := current_time }, [buffer])
    else if confidence.any (fun c => cfg.low_detection_threshold ≤ c) then
      ({ s with last_detection_time := current_time }, [])
    else if confidence.all (fun c => c < cfg.low_detection_threshold) then
      ({ s with recorded_detection := false }, [])
    else (s, [])
  else (s, [])

/-! ### Config validation: `CanAI._validate_config` (src/canai/canai.py) -/

/-- The slice of the application config that `_validate_config` inspects.
A field is `none` when the corresponding key is absent from the dict. -/
structure AppConfig where
  fps : Option ℚ
  pre_event_seconds : Option ℚ
  post_event_seconds : Option ℚ
  deriving Repr, DecidableEq

/-- Shallow embedding of `CanAI._validate_config` (src/canai/canai.py).
`Except.error` stands for a raised `ValueError`, carrying its message.  The
key-presence loop runs over `['fps', 'pre_event_seconds',
'post_event_seconds']` in order, then the range checks follow in source
order. -/
def validate_config (c : AppConfig) : Except String Unit :=
  match c.fps with
  | none => .error "Missing required configuration key: fps"
  | some fps =>
    match c.pre_event_seconds with
    | none => .error "Missing required configuration key: pre_event_seconds"
    | some pre =>
      match c.post_event_seconds with
      | none => .error "Missing required configuration key: post_event_seconds"
      | some post =>
        if ¬ (1 ≤ fps ∧ fps ≤ 60) then
          .error "FPS must be between 1 and 60"
        else if pre < 0 then
          .error "Pre-event seconds cannot be negative"
        else if post < 0 then
          .error "Post-event seconds cannot be negative"
        else .ok ()

/-! ### Pre-event buffer: `VideoStreamHandler`
(src/canai/stream/video_stream_handler.py) -/

/-- The buffer-related state of a `VideoStreamHandler`: the queued frames
(front of the list is the front of `queue.Queue`, i.e. the oldest frame), and
the `frame_timestamps` list.  `max_pre_frames` is the `maxsize` the queue was
constructed with. -/
structure BufferState where
  frame_buffer : List Frame
  frame_timestamps : List ℚ
  deriving Repr, DecidableEq

/-- The state of a freshly constructed handler: empty queue, empty timestamp
list. -/
def initBufferState : BufferState := { frame_buffer := [], frame_timestamps := [] }

/-- `queue.Queue.full()`: true when `maxsize > 0` and at least `maxsize`
items are queued (a `maxsize` of `0` means an unbounded queue, which is never
full). -/
def queueFull (maxsize : ℕ) (q : List Frame) : Bool :=
  0 < maxsize ∧ maxsize ≤ q.length

/-- Shallow embedding of `VideoStreamHandler._maintain_buffer`
(src/canai/stream/video_stream_handler.py): while the timestamp list is
nonempty and its head is more than 2 seconds old, dequeue one frame and pop
the head timestamp.  `now` is the value of `time.time()` during the loop.
(`queue.get()` on an empty queue would block the thread; the model leaves an
empty queue empty, which only differs on states where the code would already
be stuck.) -/
def maintain_buffer (now : ℚ) : List Frame → List ℚ → List Frame × List ℚ
  | frames, t :: ts =>
    if 2 < now - t then maintain_buffer now frames.tail ts
    else (frames, t :: ts)
  | frames, [] => (frames, [])

/-- Shallow embedding of `VideoStreamHandler.add_frame`
(src/canai/stream/video_stream_handler.py): run `_maintain_buffer`; if the
queue is full, dequeue the oldest frame (note: without popping its
timestamp); enqueue the new frame; append `time.time()` to the timestamp
list.  `now` stands for `time.time()` throughout the call. -/
def add_frame (max_pre_frames : ℕ) (now : ℚ) (frame : Frame)
    (s : BufferState) : BufferState :=
  let m := maintain_buffer now s.frame_buffer s.frame_timestamps
  let fb := if queueFull max_pre_frames m.1 then m.1.tail else m.1
  { frame_buffer := fb ++ [frame], frame_timestamps := m.2 ++ [now] }

/-- Folding a run of `add_frame` calls, each with its own clock reading,
starting from a given state. -/
def run_adds (max_pre_frames : ℕ) (s : BufferState) :
    List (ℚ × Frame) → BufferState
  | [] => s
  | (now, f) :: rest => run_adds max_pre_frames (add_frame max_pre_frames now f s) rest

/-! ### Clip recording: `EventClipRecorder.record_clip`

The repository contains two versions of the recorder:
`src/canai/project_utils/video_recorder.py` (the one `main.py` wires up,
with a `try/except/finally`) and `src/project_utils/video_recorder.py`
(no exception handling, a fixed post-frame count).  Both are embedded.

Effects are returned as a trace.  Errors raised by the cv2 / callback calls
inside `record_clip` are supplied by oracles: `write_err k` says whether the
`k`-th `write` call on the sink raises, and `fetch i` gives the result of
the `i`-th call of the live-frame accessor (`.error ()` models the call
raising, `.ok` its normal return). -/

/-- Observable outcome of a `record_clip` call: whether an output sink was
opened, the frames written to it in order, whether it was released, and
whether the call let an exception escape to the caller. -/
structure RecordResult where
  sink_opened : Bool
  frames_written : List Frame
  released : Bool
  raised : Bool
  deriving Repr, DecidableEq

/-- The pre-event writing loop (`for frame in pre_event_frames:
video_writer.write(frame)` in both versions): writes each frame in order,
stopping when a `write` call raises.  `k` is the index of the next `write`
call; returns the frames written, the next write index and whether an
exception was raised. -/
def write_pre (write_err : ℕ → Bool) : ℕ → List Frame → List Frame × ℕ × Bool
  | k, [] => ([], k, false)
  | k, f :: fs =>
    if write_err k then ([], k, true)
    else
      let r := write_pre write_err (k + 1) fs
      (f :: r.1, r.2)

/-- The post-event loop shared by both versions: for `n` iterations, fetch
the current frame and write it when it is present; stop when the fetch or
the write raises.  `i` is the next fetch index, `k` the next write index;
returns the frames written and whether an exception was raised. -/
def post_loop (write_err : ℕ → Bool) (fetch : ℕ → Except Unit (Option Frame)) :
    ℕ → ℕ → ℕ → List Frame × Bool
  | 0, _, _ => ([], false)
  | n + 1, i, k =>
    match fetch i with
    | .error _ => ([], true)
    | .ok none => post_loop write_err fetch n (i + 1) k
    | .ok (some f) =>
      if write_err k then ([], true)
      else
        let r := post_loop write_err fetch n (i + 1) (k + 1)
        (f :: r.1, r.2)

/-- Shallow embedding of `EventClipRecorder.record_clip` in
src/canai/project_utils/video_recorder.py.  The whole body runs inside
`try/except Exception/finally`; the `finally` block releases the writer
exactly when `video_writer` is in `locals()`, i.e. when the
`cv2.VideoWriter` constructor was reached and returned.  The post-event
loop is paced by the wall clock (`while time.time() - start_time <
post_event_seconds`); `post_iters` is the number of iterations the clock
admits.  `open_raises` says whether the `cv2.VideoWriter` constructor
raises.  (The `os.makedirs` call precedes the empty check; were it to
raise, the `except` path yields the same trace as an empty input.) -/
def canai_record_clip (post_iters : ℕ) (pre : List Frame)
    (open_raises : Bool) (write_err : ℕ → Bool)
    (fetch : ℕ → Except Unit (Option Frame)) : RecordResult :=
  if pre.isEmpty then
    { sink_opened := false, frames_written := [], released := false, raised := false }
  else if open_raises then
    { sink_opened := false, frames_written := [], released := false, raised := false }
  else
    let w := write_pre write_err 0 pre
    if w.2.2 then
      { sink_opened := true, frames_written := w.1, released := true, raised := false }
    else
      let p := post_loop write_err fetch post_iters 0 w.2.1
      { sink_opened := true, frames_written := w.1 ++ p.1, released := true,
        raised := false }

/-- Shallow embedding of `EventClipRecorder.record_clip` in
src/project_utils/video_recorder.py.  No exception handling: an exception
raised by a write or by the frame accessor propagates to the caller and the
trailing `out.release()` is skipped.  `is_opened` is the result of
`out.isOpened()`; when it is false the call returns early (without a
release, but nothing was written).  The post loop runs
`int(self.fps * self.post_event_seconds)` iterations (`fps` and
`post_event_seconds` are ints, so the count is `fps * post_event_seconds`).
The pacing calls (`_sync_frame_rate`) only sleep and are not modelled. -/
def pu_record_clip (fps post_event_seconds : ℕ) (pre : List Frame)
    (is_opened : Bool) (write_err : ℕ → Bool)
    (fetch : ℕ → Except Unit (Option Frame)) : RecordResult :=
  if pre.isEmpty then
    { sink_opened := false, frames_written := [], released := false, raised := false }
  else if ¬ is_opened then
    { sink_opened := false, frames_written := [], released := false, raised := false }
  else
    let w := write_pre write_err 0 pre
    if w.2.2 then
      { sink_opened := true, frames_written := w.1, released := false, raised := true }
    else
      let p := post_loop write_err fetch (fps * post_event_seconds) 0 w.2.1
      if p.2 then
        { sink_opened := true, frames_written := w.1 ++ p.1, released := false,
          raised := true }
      else
        { sink_opened := true, frames_written := w.1 ++ p.1, released := true,
          raised := false }

/-! ### Detection: `AIDetector.detect` (src/canai/detectors/ai_detector.py) -/

/-- One row of `results.xyxy[0]`: its confidence and class (the box
coordinates only feed the drawing calls, which are opaque here). -/
structure Detection where
  conf : ℚ
  cls : ℕ
  deriving Repr, DecidableEq

/-- The `for det in detections` loop of `AIDetector.detect`: detections
below `detection_threshold` are skipped; each remaining one draws its box
and label onto the output frame (`annotate`) and sets `detected`. -/
def detect_loop (threshold : ℚ) (annotate : Frame → Detection → Frame) :
    Frame → Bool → List Detection → Bool × Frame
  | out, detected, [] => (detected, out)
  | out, detected, d :: ds =>
    if d.conf < threshold then detect_loop threshold annotate out detected ds
    else detect_loop threshold annotate (annotate out d) true ds

/-- Shallow embedding of `AIDetector.detect`
(src/canai/detectors/ai_detector.py).  `inference` is the outcome of the
fallible prefix of the `try` block (colour conversion, resize, model call,
`.cpu().numpy()`): `.error ()` models any exception raised there, caught by
the `except Exception` handler, which returns `(False, frame)` with the
input frame unchanged.  On success the loop runs over the detections,
starting from `output_frame = frame.copy()` (a value copy of the input). -/
def detect (threshold : ℚ) (annotate : Frame → Detection → Frame)
    (frame : Frame) (inference : Except Unit (List Detection)) : Bool × Frame :=
  match inference with
  | .error _ => (false, frame)
  | .ok dets => detect_loop threshold annotate frame false dets

end Canai

namespace Canai

/-! ## Theorems -/

/-- C1: while a recording is in flight (`recording_in_progress` true),
`_handle_detection` spawns no recording task (and leaves the state
untouched); when some confidence reaches the high threshold, no recording is
in progress and the cooldown since the last trigger has elapsed, exactly one
recording task is spawned, carrying the pre-event buffer snapshot, and
`recording_in_progress` becomes true; and no single call ever spawns more
than one task. -/
theorem C1_single_recording (cfg : TriggerConfig) (s : TriggerState)
    (t : ℚ) (conf : List ℚ) (buf : List Frame) :
    (s.recording_in_progress = true →
      handle_detection cfg s t conf buf = (s, [])) ∧
    (s.recording_in_progress = false →
      conf.any (fun c => cfg.detection_threshold ≤ c) = true →
      cfg.pre_event_seconds < t - s.last_detection_time →
      handle_detection cfg s t conf buf =
        ({ s with recording_in_progress := true, last_detection_time := t },
          [buf])) ∧
    (handle_detection cfg s t conf buf).2.length ≤ 1 := by
  refine ⟨fun h => ?_, fun h1 h2 h3 => ?_, ?_⟩
  · simp [handle_detection, h]
  · simp [handle_detection, h1, h2, h3]
  · unfold handle_detection
    split
    · split
      · simp
      · split
        · simp
        · split <;> simp
    · simp

/-- Witness for C1 at a concrete input: default config, idle state, a
confidence of 0.9 at time 5 with last trigger at time 0. -/
theorem C1_single_recording_witness :
    handle_detection defaultTriggerConfig
      { recorded_detection := false, last_detection_time := 0,
        recording_in_progress := false } 5 [9/10] [3] =
      ({ recorded_detection := false, last_detection_time := 5,
         recording_in_progress := true }, [[3]]) :=
  (C1_single_recording defaultTriggerConfig
    { recorded_detection := false, last_detection_time := 0,
      recording_in_progress := false } 5 [9/10] [3]).2.1
    rfl (by norm_num [defaultTriggerConfig, List.any_cons, List.any_nil])
    (by norm_num [defaultTriggerConfig])

/-- C2 (code evaluation at the failing input): with the default thresholds,
a frame whose confidence 0.1 is below the low threshold 0.3 leaves
`recorded_detection` true — the clearing branch sits inside the
`confidence >= high_threshold` block and is not reached, so the flag is not
cleared as the spec requires. -/
theorem C2_below_low_eval :
    ([(1 : ℚ)/10].all
        (fun c => c < defaultTriggerConfig.low_detection_threshold) = true) ∧
    (handle_detection defaultTriggerConfig
        { recorded_detection := true, last_detection_time := 0,
          recording_in_progress := false } 1 [1/10] []) =
      ({ recorded_detection := true, last_detection_time := 0,
         recording_in_progress := false }, []) := by
  constructor
  · norm_num [defaultTriggerConfig, List.all_cons, List.all_nil]
  · simp only [handle_detection, defaultTriggerConfig,
      List.any_cons, List.any_nil]
    norm_num

/-- C3 (code evaluation at the failing input): with the default thresholds,
a frame whose confidence 0.5 lies between the low threshold 0.3 and the
high threshold 0.7 leaves the whole trigger state unchanged — in
particular `last_detection_time` stays 0 instead of being refreshed to the
current time 10, because the refresh branch sits inside the
`confidence >= high_threshold` block. -/
theorem C3_mid_confidence_eval :
    ([(1 : ℚ)/2].any
        (fun c => defaultTriggerConfig.low_detection_threshold ≤ c) = true) ∧
    ([(1 : ℚ)/2].all
        (fun c => c < defaultTriggerConfig.detection_threshold) = true) ∧
    (handle_detection defaultTriggerConfig
        { recorded_detection := false, last_detection_time := 0,
          recording_in_progress := false } 10 [1/2] []) =
      ({ recorded_detection := false, last_detection_time := 0,
         recording_in_progress := false }, []) := by
  refine ⟨by norm_num [defaultTriggerConfig, List.any_cons, List.any_nil],
    by norm_num [defaultTriggerConfig, List.all_cons, List.all_nil], ?_⟩
  simp only [handle_detection, defaultTriggerConfig,
    List.any_cons, List.any_nil]
  norm_num

/-- C4: for a config holding all three required keys, `_validate_config`
succeeds exactly when `fps ∈ [1, 60]` and both durations are non-negative
(so it raises `ValueError` iff `fps` is out of range or a duration is
negative), and a config missing a required key is always rejected. -/
theorem C4_validate_config (a b c : ℚ) (cfg : AppConfig) :
    (validate_config ⟨some a, some b, some c⟩ = .ok () ↔
      (1 ≤ a ∧ a ≤ 60 ∧ 0 ≤ b ∧ 0 ≤ c)) ∧
    ((cfg.fps = none ∨ cfg.pre_event_seconds = none ∨
        cfg.post_event_seconds = none) →
      ∃ msg, validate_config cfg = .error msg) := by
  constructor
  · simp only [validate_config]
    by_cases h1 : 1 ≤ a ∧ a ≤ 60
    · rw [if_neg (not_not_intro h1)]
      by_cases h2 : b < 0
      · rw [if_pos h2]
        constructor
        · intro h; simp at h
        · rintro ⟨-, -, hb, -⟩; linarith
      · rw [if_neg h2]
        by_cases h3 : c < 0
        · rw [if_pos h3]
          constructor
          · intro h; simp at h
          · rintro ⟨-, -, -, hc⟩; linarith
        · rw [if_neg h3]
          constructor
          · intro _
            exact ⟨h1.1, h1.2, le_of_not_lt h2, le_of_not_lt h3⟩
          · intro _; rfl
    · rw [if_pos h1]
      constructor
      · intro h; simp at h
      · rintro ⟨ha1, ha2, -, -⟩; exact absurd ⟨ha1, ha2⟩ h1
  · intro h
    rcases cfg with ⟨f, p, q⟩
    rcases f with - | f
    · exact ⟨_, rfl⟩
    rcases p with - | p
    · exact ⟨_, rfl⟩
    rcases q with - | q
    · exact ⟨_, rfl⟩
    simp at h

/-! ### Buffer lemmas for C5 and C6 -/

/-- `_maintain_buffer` removes a common prefix: it only ever drops elements
from the front of the frame queue and the timestamp list. -/
theorem maintain_buffer_drop (now : ℚ) (fb : List Frame) (ts : List ℚ) :
    ∃ j, (maintain_buffer now fb ts).1 = fb.drop j ∧
      (maintain_buffer now fb ts).2 = ts.drop j := by
  induction ts generalizing fb with
  | nil => exact ⟨0, rfl, rfl⟩
  | cons t ts ih =>
    by_cases h : 2 < now - t
    · simp only [maintain_buffer, if_pos h]
      obtain ⟨j, h1, h2⟩ := ih fb.tail
      refine ⟨j + 1, ?_, ?_⟩
      · rw [h1, ← List.drop_one, List.drop_drop, Nat.add_comm]
      · rw [h2]; rfl
    · simp only [maintain_buffer, if_neg h]
      exact ⟨0, rfl, rfl⟩

/-- After `_maintain_buffer`, no surviving timestamp is more than 2 seconds
old, provided the timestamp list was sorted (the code only inspects the head
of the list). -/
theorem maintain_buffer_window (now : ℚ) (fb : List Frame) (ts : List ℚ)
    (hs : ts.Sorted (· ≤ ·)) :
    ∀ t ∈ (maintain_buffer now fb ts).2, now - t ≤ 2 := by
  induction ts generalizing fb with
  | nil => simp [maintain_buffer]
  | cons t ts ih =>
    rw [List.sorted_cons] at hs
    by_cases h : 2 < now - t
    · simp only [maintain_buffer, if_pos h]
      exact ih fb.tail hs.2
    · simp only [maintain_buffer, if_neg h]
      intro u hu
      rcases List.mem_cons.mp hu with rfl | hu
      · linarith [not_lt.mp h]
      · have h1 : t ≤ u := hs.1 u hu
        have h2 : now - t ≤ 2 := not_lt.mp h
        linarith

/-- One `add_frame` call keeps the buffer within capacity when the capacity
is positive. -/
theorem add_frame_length_le (max : ℕ) (h0 : 0 < max) (now : ℚ) (f : Frame)
    (s : BufferState) (hs : s.frame_buffer.length ≤ max) :
    (add_frame max now f s).frame_buffer.length ≤ max := by
  obtain ⟨j, h1, -⟩ := maintain_buffer_drop now s.frame_buffer s.frame_timestamps
  have hm : (maintain_buffer now s.frame_buffer s.frame_timestamps).1.length ≤ max := by
    rw [h1, List.length_drop]; omega
  simp only [add_frame]
  by_cases hf : queueFull max (maintain_buffer now s.frame_buffer s.frame_timestamps).1
  · have hq : 0 < max ∧
        max ≤ (maintain_buffer now s.frame_buffer s.frame_timestamps).1.length := by
      simpa [queueFull] using hf
    rw [if_pos hf]
    simp only [List.length_append, List.length_tail, List.length_cons,
      List.length_nil]
    omega
  · have hq : ¬ (0 < max ∧
        max ≤ (maintain_buffer now s.frame_buffer s.frame_timestamps).1.length) := by
      simpa [queueFull] using hf
    rw [if_neg hf]
    simp only [List.length_append, List.length_cons, List.length_nil]
    omega

/-- Every eviction performed by `add_frame` removes frames from the front of
the queue only: the post-state buffer is a suffix of the pre-state buffer
with the new frame appended. -/
theorem add_frame_fifo (max : ℕ) (now : ℚ) (f : Frame) (s : BufferState) :
    ∃ k, (add_frame max now f s).frame_buffer = s.frame_buffer.drop k ++ [f] := by
  obtain ⟨j, h1, -⟩ := maintain_buffer_drop now s.frame_buffer s.frame_timestamps
  simp only [add_frame]
  by_cases hf : queueFull max (maintain_buffer now s.frame_buffer s.frame_timestamps).1
  · rw [if_pos hf, h1]
    exact ⟨j + 1, by rw [List.tail_drop]⟩
  · rw [if_neg hf, h1]
    exact ⟨j, rfl⟩

/-- After an `add_frame` call on a state with a sorted timestamp list, every
stored timestamp is at most 2 seconds old. -/
theorem add_frame_window (max : ℕ) (now : ℚ) (f : Frame) (s : BufferState)
    (hs : s.frame_timestamps.Sorted (· ≤ ·)) :
    ∀ t ∈ (add_frame max now f s).frame_timestamps, now - t ≤ 2 := by
  simp only [add_frame]
  intro t ht
  rcases List.mem_append.mp ht with h | h
  · exact maintain_buffer_window now s.frame_buffer s.frame_timestamps hs t h
  · rcases List.mem_singleton.mp h with rfl
    norm_num

/-- `add_frame` preserves sortedness of the timestamp list when the clock
reading is at least every stored timestamp. -/
theorem add_frame_sorted (max : ℕ) (now : ℚ) (f : Frame) (s : BufferState)
    (hs : s.frame_timestamps.Sorted (· ≤ ·))
    (hb : ∀ t ∈ s.frame_timestamps, t ≤ now) :
    (add_frame max now f s).frame_timestamps.Sorted (· ≤ ·) := by
  obtain ⟨j, -, h2⟩ := maintain_buffer_drop now s.frame_buffer s.frame_timestamps
  simp only [add_frame]
  refine List.pairwise_append.mpr ⟨?_, List.sorted_singleton now, ?_⟩
  · rw [h2]; exact hs.sublist (List.drop_sublist j _)
  · intro a ha b hb'
    rcases List.mem_singleton.mp hb' with rfl
    rw [h2] at ha
    exact hb a (List.mem_of_mem_drop ha)

/-- All timestamps after an `add_frame` call are bounded by the clock
reading, provided the old ones were. -/
theorem add_frame_bound (max : ℕ) (now : ℚ) (f : Frame) (s : BufferState)
    (hb : ∀ t ∈ s.frame_timestamps, t ≤ now) :
    ∀ t ∈ (add_frame max now f s).frame_timestamps, t ≤ now := by
  obtain ⟨j, -, h2⟩ := maintain_buffer_drop now s.frame_buffer s.frame_timestamps
  simp only [add_frame]
  intro t ht
  rcases List.mem_append.mp ht with h | h
  · rw [h2] at h
    exact hb t (List.mem_of_mem_drop h)
  · rcases List.mem_singleton.mp h with rfl
    exact le_refl _

/-- Over a whole run with nondecreasing clock readings (each at least every
timestamp already stored), the timestamp list stays sorted. -/
theorem run_adds_sorted (max : ℕ) :
    ∀ (adds : List (ℚ × Frame)) (s : BufferState),
      (adds.map Prod.fst).Sorted (· ≤ ·) →
      s.frame_timestamps.Sorted (· ≤ ·) →
      (∀ t ∈ s.frame_timestamps, ∀ u ∈ adds.map Prod.fst, t ≤ u) →
      (run_adds max s adds).frame_timestamps.Sorted (· ≤ ·) := by
  intro adds
  induction adds with
  | nil => intro s _ hs _; exact hs
  | cons a rest ih =>
    intro s hmap hs hcross
    rcases a with ⟨now, f⟩
    simp only [List.map_cons, List.sorted_cons] at hmap
    have hb : ∀ t ∈ s.frame_timestamps, t ≤ now := fun t ht =>
      hcross t ht now (by simp)
    refine ih (add_frame max now f s)
      hmap.2 (add_frame_sorted max now f s hs hb) ?_
    intro t ht u hu
    have ht' := add_frame_bound max now f s hb t ht
    have hnu : now ≤ u := hmap.1 u hu
    linarith

/-- Over a whole run started from the empty state, the buffer never exceeds
a positive capacity. -/
theorem run_adds_length_le (max : ℕ) (h0 : 0 < max) :
    ∀ (adds : List (ℚ × Frame)) (s : BufferState),
      s.frame_buffer.length ≤ max →
      (run_adds max s adds).frame_buffer.length ≤ max := by
  intro adds
  induction adds with
  | nil => intro s hs; exact hs
  | cons a rest ih =>
    intro s hs
    rcases a with ⟨now, f⟩
    exact ih _ (add_frame_length_le max h0 now f s hs)

/-- C5 (amended: the capacity must be positive, since `queue.Queue`
treats `maxsize=0` as unbounded): over every run of `add_frame` calls from
the initial state, the buffer length never exceeds `max_pre_frames`; every
eviction removes frames only from the front of the queue, i.e. the oldest
ones (the post-state buffer is a suffix of the pre-state buffer with the
new frame appended); and, the clock readings of a run being nondecreasing,
after each add no stored timestamp is more than 2 seconds older than that
add's clock reading. -/
theorem C5_buffer_bounds (max : ℕ) (h0 : 0 < max) :
    (∀ adds : List (ℚ × Frame),
      (run_adds max initBufferState adds).frame_buffer.length ≤ max) ∧
    (∀ (s : BufferState) (now : ℚ) (f : Frame),
      ∃ k, (add_frame max now f s).frame_buffer =
        s.frame_buffer.drop k ++ [f]) ∧
    (∀ (adds : List (ℚ × Frame)) (now : ℚ) (f : Frame),
      (adds.map Prod.fst ++ [now]).Sorted (· ≤ ·) →
      ∀ t ∈ (add_frame max now f
          (run_adds max initBufferState adds)).frame_timestamps,
        now - t ≤ 2) := by
  refine ⟨fun adds =>
      run_adds_length_le max h0 adds initBufferState (by simp [initBufferState]),
    fun s now f => add_frame_fifo max now f s,
    fun adds now f h => ?_⟩
  have hmap : (adds.map Prod.fst).Sorted (· ≤ ·) :=
    (List.pairwise_append.mp h).1
  have hsorted := run_adds_sorted max adds initBufferState hmap
    (by simp [initBufferState]) (by simp [initBufferState])
  exact add_frame_window max now f _ hsorted

/-- Witness for C5 at a concrete run: capacity 1, adds at times 0 and 1,
then one more add at time 3. -/
theorem C5_buffer_bounds_witness :
    (run_adds 1 initBufferState [(0, 5), (1, 6)]).frame_buffer.length ≤ 1 ∧
    (∀ t ∈ (add_frame 1 3 7
        (run_adds 1 initBufferState [(0, 5), (1, 6)])).frame_timestamps,
      (3 : ℚ) - t ≤ 2) := by
  have h := C5_buffer_bounds 1 (by norm_num)
  refine ⟨h.1 [(0, 5), (1, 6)], h.2.2 [(0, 5), (1, 6)] 3 7 ?_⟩
  norm_num [List.sorted_cons]

/-- C5 fails exactly at capacity 0: `queue.Queue(maxsize=0)` is an
unbounded queue (`full()` is never true there), so with `max_pre_frames =
0` two quick adds leave 2 frames in the buffer, exceeding the configured
capacity. -/
theorem C5_zero_capacity_counterexample :
    ¬ ((run_adds 0 initBufferState [(0, 1), (0, 2)]).frame_buffer.length ≤ 0) := by
  norm_num [run_adds, add_frame, maintain_buffer, initBufferState, queueFull]

/-- C6 (code evaluation at the failing input): with capacity 1, two adds
inside the 2-second window leave one frame but two timestamps — the
capacity eviction in `add_frame` dequeues the oldest frame without popping
its timestamp, so the two lists desynchronise; the surviving frame (added
at the second call) sits against the first call's timestamp in
`_get_timed_frames`'s zip. -/
theorem C6_timestamp_desync_eval :
    (run_adds 1 initBufferState [(0, 10), (0, 20)]).frame_buffer = [20] ∧
    (run_adds 1 initBufferState [(0, 10), (0, 20)]).frame_timestamps = [0, 0] := by
  norm_num [run_adds, add_frame, maintain_buffer, initBufferState, queueFull]

/-- Witness for C4 at concrete inputs: fps 30 with zero durations is
accepted; a config missing `fps` is rejected. -/
theorem C4_validate_config_witness :
    validate_config ⟨some 30, some 0, some 0⟩ = .ok () ∧
    ∃ msg, validate_config (⟨none, some 0, some 0⟩ : AppConfig) = .error msg :=
  ⟨((C4_validate_config 30 0 0 ⟨none, some 0, some 0⟩).1).mpr
      (by norm_num),
    (C4_validate_config 30 0 0 ⟨none, some 0, some 0⟩).2 (Or.inl rfl)⟩

/-! ### Recorder lemmas for C7–C9 -/

/-- When no write raises, the pre-event loop writes the whole list in order
and advances the write index by its length. -/
theorem write_pre_no_err (k : ℕ) (l : List Frame) :
    write_pre (fun _ => false) k l = (l, k + l.length, false) := by
  induction l generalizing k with
  | nil => simp [write_pre]
  | cons f fs ih =>
    simp only [write_pre, Bool.false_eq_true, if_false, ih, List.length_cons]
    have h : k + 1 + fs.length = k + (fs.length + 1) := by omega
    rw [h]

/-- When neither the fetch nor the writes raise, the post-event loop writes
exactly the frames the accessor returns, in fetch order. -/
theorem post_loop_no_err (g : ℕ → Option Frame) (n : ℕ) :
    ∀ i k, post_loop (fun _ => false) (fun j => .ok (g j)) n i k =
      ((List.range' i n).filterMap g, false) := by
  induction n with
  | zero => intro i k; rfl
  | succ n ih =>
    intro i k
    simp only [post_loop]
    cases hg : g i with
    | none => simp [ih, List.range', hg]
    | some f => simp [ih, List.range', hg]

/-- A `filterMap` by a function returning `some` on every element of the
list keeps the length. -/
theorem filterMap_length_of_isSome {α β : Type} (g : α → Option β) :
    ∀ l : List α, (∀ a ∈ l, (g a).isSome) → (l.filterMap g).length = l.length := by
  intro l
  induction l with
  | nil => intro _; rfl
  | cons a l ih =>
    intro h
    cases hg : g a with
    | none =>
      have := h a (by simp)
      rw [hg] at this
      cases this
    | some b =>
      simp only [List.filterMap_cons, hg, List.length_cons]
      rw [ih fun x hx => h x (by simp [hx])]

/-- C7: calling `record_clip` with an empty pre-event frame list is a no-op
apart from the log line, in both versions of the recorder: no output sink
is opened, nothing is written (and nothing is raised). -/
theorem C7_empty_noop (post_iters fps post : ℕ) (open_raises is_opened : Bool)
    (write_err : ℕ → Bool) (fetch : ℕ → Except Unit (Option Frame)) :
    canai_record_clip post_iters [] open_raises write_err fetch =
      { sink_opened := false, frames_written := [], released := false,
        raised := false } ∧
    pu_record_clip fps post [] is_opened write_err fetch =
      { sink_opened := false, frames_written := [], released := false,
        raised := false } :=
  ⟨rfl, rfl⟩

/-- C8 (amended): the recorder in src/canai/project_utils/video_recorder.py
releases the sink on every exit path — whenever the writer was constructed,
the `finally` block releases it, whether the writes succeeded or raised.
The recorder in src/project_utils/video_recorder.py releases the sink only
when no exception was raised while writing. -/
theorem C8_release_on_exit (post_iters fps post : ℕ) (pre : List Frame)
    (open_raises is_opened : Bool) (write_err : ℕ → Bool)
    (fetch : ℕ → Except Unit (Option Frame)) :
    ((canai_record_clip post_iters pre open_raises write_err fetch).sink_opened
        = true →
      (canai_record_clip post_iters pre open_raises write_err fetch).released
        = true) ∧
    ((pu_record_clip fps post pre is_opened write_err fetch).raised = false →
      (pu_record_clip fps post pre is_opened write_err fetch).sink_opened
        = true →
      (pu_record_clip fps post pre is_opened write_err fetch).released
        = true) := by
  constructor
  · simp only [canai_record_clip]
    split_ifs <;> simp
  · simp only [pu_record_clip]
    split_ifs <;> simp

/-- Witness for C8: a concrete error-free recording through each version. -/
theorem C8_release_on_exit_witness :
    (canai_record_clip 2 [5] false (fun _ => false)
        (fun _ => .ok (some 9))).released = true ∧
    (pu_record_clip 2 1 [5] true (fun _ => false)
        (fun _ => .ok (some 9))).released = true := by
  have h := C8_release_on_exit 2 2 1 [5] false true (fun _ => false)
    (fun _ => .ok (some 9))
  exact ⟨h.1 rfl, h.2 rfl rfl⟩

/-- C8 counterexample to the claim as stated: in the
src/project_utils/video_recorder.py version, when the live-frame accessor
raises during the post-event loop, the exception propagates and
`out.release()` is skipped — the sink was opened but never released. -/
theorem C8_pu_leak_counterexample :
    (pu_record_clip 30 1 [5] true (fun _ => false)
        (fun _ => .error ())).sink_opened = true ∧
    (pu_record_clip 30 1 [5] true (fun _ => false)
        (fun _ => .error ())).released = false ∧
    (pu_record_clip 30 1 [5] true (fun _ => false)
        (fun _ => .error ())).raised = true := by
  refine ⟨rfl, rfl, rfl⟩

/-- C9: on a non-empty pre-event list, with an opened writer and no
exceptions, `record_clip` (src/project_utils/video_recorder.py) writes all
pre-event frames first, in order, then performs `fps * post_event_seconds`
fetch iterations writing each fetched frame that is present; when a frame
is always available the clip holds `pre.length + fps * post_event_seconds`
frames.  The src/canai version paces its post-event loop by the wall clock
instead of a fixed count; for it the same pre-first, write-if-present shape
is proved with the clock-determined iteration count `post_iters`. -/
theorem C9_clip_contents (fps post post_iters : ℕ) (pre : List Frame)
    (g : ℕ → Option Frame) (hpre : pre ≠ []) :
    (pu_record_clip fps post pre true (fun _ => false)
        (fun i => .ok (g i))).frames_written =
      pre ++ (List.range (fps * post)).filterMap g ∧
    ((∀ i, (g i).isSome) →
      (pu_record_clip fps post pre true (fun _ => false)
          (fun i => .ok (g i))).frames_written.length =
        pre.length + fps * post) ∧
    (canai_record_clip post_iters pre false (fun _ => false)
        (fun i => .ok (g i))).frames_written =
      pre ++ (List.range post_iters).filterMap g := by
  have h1 : pre.isEmpty = false := by
    cases pre
    · exact absurd rfl hpre
    · rfl
  have hmain : (pu_record_clip fps post pre true (fun _ => false)
      (fun i => .ok (g i))).frames_written =
      pre ++ (List.range (fps * post)).filterMap g := by
    simp only [pu_record_clip, h1, Bool.false_eq_true, if_false,
      write_pre_no_err, post_loop_no_err, not_true, List.range_eq_range']
  refine ⟨hmain, fun hg => ?_, ?_⟩
  · rw [hmain]
    simp only [List.length_append]
    rw [filterMap_length_of_isSome g _ (fun a _ => hg a), List.length_range]
  · simp only [canai_record_clip, h1, Bool.false_eq_true, if_false,
      write_pre_no_err, post_loop_no_err, List.range_eq_range']

/-- Witness for C9: one pre-event frame, fps 2, 3 post-event seconds, the
accessor always returning frame 9: the clip is the pre frame followed by
six nines. -/
theorem C9_clip_contents_witness :
    (pu_record_clip 2 3 [4] true (fun _ => false)
        (fun _ => .ok (some 9))).frames_written = [4, 9, 9, 9, 9, 9, 9] ∧
    (pu_record_clip 2 3 [4] true (fun _ => false)
        (fun _ => .ok (some 9))).frames_written.length = 1 + 2 * 3 := by
  have h := C9_clip_contents 2 3 6 [4] (fun _ => some 9) (by simp)
  refine ⟨?_, h.2.1 fun i => rfl⟩
  rw [h.1]
  rfl

/-- C10: `AIDetector.detect` is total at its interface: any exception in
the inference prefix is caught and yields `(False, frame)` with the input
frame unchanged, and when every detection's confidence is below the
threshold the returned flag is `False`. -/
theorem C10_detect_total (threshold : ℚ)
    (annotate : Frame → Detection → Frame) (frame : Frame) :
    (∀ e, detect threshold annotate frame (.error e) = (false, frame)) ∧
    (∀ dets : List Detection, (∀ d ∈ dets, d.conf < threshold) →
      detect threshold annotate frame (.ok dets) = (false, frame)) := by
  refine ⟨fun e => rfl, fun dets h => ?_⟩
  show detect_loop threshold annotate frame false dets = (false, frame)
  induction dets with
  | nil => rfl
  | cons d ds ih =>
    have hd : d.conf < threshold := h d (by simp)
    simp only [detect_loop, if_pos hd]
    exact ih fun x hx => h x (by simp [hx])

/-- Witness for C10: threshold 0.5, a raising inference and a single
detection of confidence 0.25 both yield the flag `False` and the untouched
input frame. -/
theorem C10_detect_total_witness :
    detect (1/2) (fun f _ => f + 1) 3 (.error ()) = (false, 3) ∧
    detect (1/2) (fun f _ => f + 1) 3
      (.ok [{ conf := 1/4, cls := 0 }]) = (false, 3) := by
  have h := C10_detect_total (1/2) (fun f _ => f + 1) 3
  refine ⟨h.1 (), h.2 [{ conf := 1/4, cls := 0 }] ?_⟩
  intro d hd
  rcases List.mem_singleton.mp hd with rfl
  norm_num

end Canai
